import Mathlib

/-!
Verification of the mapmaker tile/cache/render core.

Shallow embedding of the relevant parts of the source:
  * src/mapmaker/geo.py       (BBox, distance, destination_point, dms, decimal)
  * src/mapmaker/tilemap.py   (tile coordinates, Tile bbox edges, TileMap tiles)
  * src/mapmaker/render.py    (RenderContext build / work loop)
  * src/mapmaker/service.py   (TileService request retry, Cache fetch/vacuum, Fallback)
  * src/mapmaker/decorations.py (Frame tick selection)

Python floats are modelled as rationals where only field arithmetic and
floor occur, and as real numbers where the code uses transcendental
functions.  Python exceptions are modelled with Except over an explicit
error type.  Etag strings are modelled as natural numbers, with 0 standing
for the empty string (the only property of an etag the code inspects is
Python truthiness, i.e. non-emptiness).
-/

/-- Python exception kinds raised (or potentially raised) by the modelled code. -/
inductive PyErr where
  | valueError
  | lookupError
  | unboundLocalError
  | attributeError
  | typeError
  | zeroDivisionError
  | httpError (code : Nat)
  | connectionError
  deriving DecidableEq, Repr

/-! ## render.py : RenderContext

`RenderContext.build` fills a task queue with the tiles of the map, then runs
`threading.Thread(daemon=True, target=self._work).run()` once per configured
parallel download.  `Thread.run` (unlike `Thread.start`) executes `_work`
synchronously in the calling thread, so the whole download loop is in fact
sequential and deterministic: the first `_work` call drains the entire queue.
`_work` pops a tile, fetches it, pastes it under the lock and calls
`_tile_complete`, which increments the counter and reports it. -/

/-- State of a RenderContext during `build`: the task queue, the
`_downloaded_tiles` counter, the completed-counts passed to the reporter by
`_tile_complete`, and the tiles pasted onto the canvas, in paste order. -/
structure RenderState where
  queue : List (Int × Int)
  downloadedTiles : Nat
  reports : List Nat
  pasted : List (Int × Int)
  deriving DecidableEq, Repr

/-- Embeds `RenderContext._work` (render.py lines 106-120): loop popping the
queue until `queue.Empty`; for each tile, paste it and run `_tile_complete`
(increment `_downloaded_tiles`, report the new count).  The service fetch is
assumed to succeed (the claim concerns a successful 2x2 build). -/
def RenderContext.workAux : List (Int × Int) → Nat → List Nat → List (Int × Int) → RenderState
  | [], d, r, p => ⟨[], d, r, p⟩
  | t :: rest, d, r, p => RenderContext.workAux rest (d + 1) (r ++ [d + 1]) (p ++ [t])

/-- The `_work` loop as a state transformer. -/
def RenderContext.work (st : RenderState) : RenderState :=
  RenderContext.workAux st.queue st.downloadedTiles st.reports st.pasted

/-- Embeds `TileMap._generate_tiles` (tilemap.py lines 49-53): tiles are
generated for x in ax..bx (outer loop) and y in ay..by (inner loop); dict
iteration in `build` preserves this insertion order. -/
def TileMap.genTiles (ax ay bx byy : Int) : List (Int × Int) :=
  ((List.range (bx + 1 - ax).toNat).map (fun (i : Nat) => ax + (i : Int))).flatMap
    (fun x =>
      ((List.range (byy + 1 - ay).toNat).map (fun (j : Nat) => ay + (j : Int))).map (fun y => (x, y)))

/-- Embeds `RenderContext.build` (render.py lines 54-76) up to the overlay and
crop steps: fill the queue with the map tiles, then run
`threading.Thread(daemon=True, target=self._work).run()` once per parallel
download.  `Thread.run` executes `_work` in the calling thread, so each
iteration is a synchronous call of `work`. -/
def RenderContext.build (tiles : List (Int × Int)) (parallelDownloads : Nat) : RenderState :=
  (List.range parallelDownloads).foldl (fun st _ => RenderContext.work st) ⟨tiles, 0, [], []⟩

/-! ## service.py : TileService._request retry loop

`_request` performs `session.get` and `raise_for_status`; it catches only
`requests.Timeout` and `requests.ConnectionError`, retrying immediately with
`retry_count` incremented, and re-raises once `retry_count > max_retries`.
An HTTP error status (>= 400) raised by `raise_for_status` is not caught.
The network is modelled as a function from the attempt index (0-based) to an
outcome; a response is modelled by its status code.  The result carries the
number of attempts (`session.get` calls) that were made. -/

/-- Outcome of one `session.get` attempt: either the connection fails
(`requests.Timeout` / `requests.ConnectionError`) or a response with the
given status code arrives. -/
inductive ReqOutcome where
  | connErr
  | status (code : Nat)
  deriving DecidableEq, Repr

/-- Embeds `TileService._request` (service.py lines 150-165).
`raise_for_status` raises for status >= 400 and that exception is not caught;
connection/timeout errors are retried immediately until
`retry_count > self._max_retries`.  Returns the status code and the total
number of attempts made, or the propagated error together with the attempt
count at which it was raised. -/
def TileService.request (maxRetries : Nat) (outcomes : Nat → ReqOutcome)
    (retryCount : Nat) : Except PyErr Nat × Nat :=
  match outcomes (retryCount - 1) with
  | .status c => if 400 ≤ c then (.error (.httpError c), retryCount) else (.ok c, retryCount)
  | .connErr =>
      if maxRetries < retryCount then (.error .connectionError, retryCount)
      else TileService.request maxRetries outcomes (retryCount + 1)
termination_by maxRetries + 1 - retryCount
decreasing_by omega

/-- Entry point of the retry loop: `fetch` calls `self._request(url, headers)`
with the default `retry_count=1`. -/
def TileService.requestStart (maxRetries : Nat) (outcomes : Nat → ReqOutcome) :
    Except PyErr Nat × Nat :=
  TileService.request maxRetries outcomes 1

/-! ## service.py : Cache._vacuum

`_vacuum` walks the cache tree collecting `(stat.st_ctime, stat.st_size, path)`
tuples, computes the excess over the byte limit, inflates it by 10 percent,
sorts the tuples ascending (hence by `st_ctime` first) and unlinks entries in
that order until the inflated excess is covered.  Note that the code reads
`st_ctime`, not `st_mtime`, although the class docstring says the `mtime`
attribute is used.  A cache file is modelled by its stat metadata. -/

/-- Stat metadata of one cache file: `st_ctime`, `st_size`, `st_mtime` and the
path (modelled as a number; paths only serve as the final sort tiebreaker).
`_vacuum` reads only `st_ctime` and `st_size`; `st_mtime` is carried to state
what "oldest by modification time" would mean. -/
structure VEntry where
  ctime : ℚ
  size : ℚ
  mtime : ℚ
  path : Nat
  deriving DecidableEq, Repr

/-- Ascending comparison of the tuples `(st_ctime, st_size, path)` collected
by `_vacuum` (service.py line 376), as Python tuple comparison orders them
for `entries.sort()`. -/
def VEntry.le (a b : VEntry) : Bool :=
  if a.ctime < b.ctime then true
  else if b.ctime < a.ctime then false
  else if a.size < b.size then true
  else if b.size < a.size then false
  else a.path ≤ b.path

/-- Stable insertion used by the sort of the vacuum entries. -/
def VEntry.insert (e : VEntry) : List VEntry → List VEntry
  | [] => [e]
  | f :: rest => if VEntry.le e f then e :: f :: rest else f :: VEntry.insert e rest

/-- Embeds `entries.sort()` (service.py line 385): stable ascending sort of
the `(st_ctime, st_size, path)` tuples, oldest `st_ctime` first. -/
def VEntry.sortAll : List VEntry → List VEntry
  | [] => []
  | e :: rest => VEntry.insert e (VEntry.sortAll rest)

/-- Embeds the deletion loop of `_vacuum` (service.py lines 386-390): walk the
sorted entries, unlink each one, subtract its size from the excess, and stop
once the excess is covered.  Returns the surviving entries. -/
def Cache.vacuumDelete (excess : ℚ) : List VEntry → List VEntry
  | [] => []
  | e :: rest =>
      if excess - e.size ≤ 0 then rest
      else Cache.vacuumDelete (excess - e.size) rest

/-- Embeds `Cache._vacuum` (service.py lines 362-390).  `if not self._limit`
returns immediately for a missing limit (and for a limit of 0, which is falsy
in Python); otherwise the excess over the limit is computed, inflated by 10
percent ("delete some additional entries to avoid frequent deletes"), and
entries are deleted oldest-`st_ctime`-first until it is covered. -/
def Cache.vacuum (limit : Option ℚ) (entries : List VEntry) : List VEntry :=
  match limit with
  | none => entries
  | some lim =>
      if lim = 0 then entries
      else
        let used := (entries.map (fun e => e.size)).sum
        let excess := used - lim
        if excess ≤ 0 then entries
        else Cache.vacuumDelete (excess * (11 / 10)) (VEntry.sortAll entries)

/-! ## service.py : Cache.fetch

The disk cache is modelled per tile key `(x, y, z)`.  `_put` and `_clean`
maintain at most one file per key, so the on-disk state is a partial map from
keys to entries; an entry records the etag encoded in the file name, the file
modification time and the stored bytes.  Etags are numbers with 0 for the
empty string; bytes are modelled by a number.  The cache is taken as
configured without a size limit, so the `_vacuum` call at the end of `_put`
returns immediately (`if not self._limit: return`, service.py line 365);
the size-limited vacuum pass is modelled separately above. -/

/-- A tile key `(x, y, z)`. -/
abbrev TileKey := Nat × Nat × Nat

/-- One cached file for a tile key: the etag encoded in its name (0 for the
empty string), its `mtime`, and its content bytes. -/
structure CEntryD where
  etag : Nat
  mtime : ℚ
  data : Nat
  deriving DecidableEq, Repr

/-- The on-disk cache state: at most one entry per tile key. -/
abbrev Store := TileKey → Option CEntryD

/-- A wrapped tile service: takes the key, the etag and the `cached_only`
flag, and returns `(recv_etag, data)` or raises. -/
abbrev SvcFn := TileKey → Option Nat → Bool → Except PyErr (Option Nat × Option Nat)

/-- Result of a `Cache.fetch` call: the returned `(etag, data)` pair or the
raised exception, the cache state afterwards, and how many times the wrapped
service's `fetch` was invoked. -/
structure FetchOut where
  result : Except PyErr (Option Nat × Option Nat)
  store : Store
  calls : Nat

/-- Embeds `Cache._find` (service.py lines 291-324): look up the entry for the
key and return its decoded etag and its `mtime`, or `(None, None)`. -/
def Cache.find (store : Store) (k : TileKey) : Option Nat × Option ℚ :=
  match store k with
  | some e => (some e.etag, some e.mtime)
  | none => (none, none)

/-- Embeds `Cache._get` (service.py lines 282-289): raise `LookupError` for a
falsy etag (None or the empty string), or when no file for this key and etag
exists; otherwise return the stored bytes. -/
def Cache.get (store : Store) (k : TileKey) (etag : Option Nat) : Except PyErr Nat :=
  match etag with
  | none => .error .lookupError
  | some t =>
      if t = 0 then .error .lookupError
      else
        match store k with
        | some e => if e.etag = t then .ok e.data else .error .lookupError
        | none => .error .lookupError

/-- Point update of the cache state. -/
def Store.update (store : Store) (k : TileKey) (e : CEntryD) : Store :=
  fun k2 => if k2 = k then some e else store k2

/-- Embeds `Cache._put` (service.py lines 326-342): skip for a falsy etag;
skip when the same etag is already stored; otherwise `_clean` removes the
outdated entry for the key, the new file is written (giving it mtime `now`),
and writing `None` bytes would raise `TypeError`.  Returns the possible
exception and the cache state after the side effects. -/
def Cache.put (store : Store) (k : TileKey) (etag : Option Nat) (data : Option Nat)
    (now : ℚ) : Except PyErr Unit × Store :=
  match etag with
  | none => (.ok (), store)
  | some t =>
      if t = 0 then (.ok (), store)
      else
        match store k with
        | some e =>
            if e.etag = t then (.ok (), store)
            else
              let cleaned : Store := fun k2 => if k2 = k then none else store k2
              match data with
              | some d => (.ok (), Store.update cleaned k ⟨t, now, d⟩)
              | none => (.error .typeError, cleaned)
        | none =>
            match data with
            | some d => (.ok (), Store.update store k ⟨t, now, d⟩)
            | none => (.error .typeError, store)

/-- Embeds the part of `Cache.fetch` after the trust-window check (service.py
lines 265-280): call the wrapped service with the stored etag; on a
not-modified answer (`data is None`) serve the cached bytes; if that lookup
fails, call the service once more without an etag; finally `_put` the result
and return it. -/
def Cache.fetchService (svc : SvcFn) (store : Store) (now : ℚ) (k : TileKey)
    (etag : Option Nat) (cachedOnly : Bool) : FetchOut :=
  match svc k etag cachedOnly with
  | .error e => ⟨.error e, store, 1⟩
  | .ok (recvEtag, some data) =>
      let put := Cache.put store k recvEtag (some data) now
      match put.1 with
      | .ok _ => ⟨.ok (recvEtag, some data), put.2, 1⟩
      | .error e => ⟨.error e, put.2, 1⟩
  | .ok (_, none) =>
      match Cache.get store k etag with
      | .ok cached => ⟨.ok (etag, some cached), store, 1⟩
      | .error _ =>
          match svc k none false with
          | .error e => ⟨.error e, store, 2⟩
          | .ok (recvEtag2, data2) =>
              let put := Cache.put store k recvEtag2 data2 now
              match put.1 with
              | .ok _ => ⟨.ok (recvEtag2, data2), put.2, 2⟩
              | .error e => ⟨.error e, put.2, 2⟩

/-- Embeds `Cache.fetch` (service.py lines 242-280).  The local `mtime` is
assigned only inside the `if etag is None` branch (line 253); when the caller
supplies an etag, evaluating `if mtime:` (line 257) raises
`UnboundLocalError` before the cache or the wrapped service is consulted.
On the no-etag path, a truthy `mtime` (a float, so 0.0 is falsy) whose age is
below `_min_age` short-circuits to the cached bytes; `_get` exceptions on
that path are not caught. -/
def Cache.fetch (svc : SvcFn) (store : Store) (now minAge : ℚ) (k : TileKey)
    (etag0 : Option Nat) (cachedOnly : Bool) : FetchOut :=
  match etag0 with
  | some _ => ⟨.error .unboundLocalError, store, 0⟩
  | none =>
      let fnd := Cache.find store k
      match fnd.2 with
      | some m =>
          if m = 0 then Cache.fetchService svc store now k fnd.1 cachedOnly
          else if now - m < minAge then
            match Cache.get store k fnd.1 with
            | .ok cached => ⟨.ok (fnd.1, some cached), store, 0⟩
            | .error e => ⟨.error e, store, 0⟩
          else Cache.fetchService svc store now k fnd.1 cachedOnly
      | none => Cache.fetchService svc store now k fnd.1 cachedOnly

/-! ## service.py : Fallback

`Fallback.fetch` delegates to the wrapped service and, on any exception,
calls `self._fallback(x, y, z, ...)`.  `_fallback` starts with
`parent, offset = tile.parent()` (service.py line 501) — but `Tile`
(tilemap.py lines 101-149) defines only `x`, `y`, `zoom`, `bbox`,
`contains`, `_lat_edges`, `_lon_edges` and `__repr__`; there is no attribute
`parent` anywhere in the repository, so the lookup raises `AttributeError`
before any parent tile can be fetched or any quadrant extracted. -/

/-- Embeds `Fallback._fallback` (service.py lines 499-508): the first
statement looks up the nonexistent attribute `parent` on the `Tile` instance
and raises `AttributeError`; the recursive fetch and `_subimage` below it are
unreachable. -/
def Fallback.fallbackFor (_x _y _z : Nat) : Except PyErr (Option Nat × Option Nat) :=
  .error .attributeError

/-- Embeds `Fallback.fetch` (service.py lines 491-497): delegate to the
wrapped service; on any exception run `_fallback`. -/
def Fallback.fetch (svc : Nat → Nat → Nat → Except PyErr (Option Nat × Option Nat))
    (x y z : Nat) : Except PyErr (Option Nat × Option Nat) :=
  match svc x y z with
  | .ok r => .ok r
  | .error _ => Fallback.fallbackFor x y z

/-! ## geo.py : dms / decimal and decorations.py : Frame._ticks

Degree values are rationals here; `dms` uses only field arithmetic and
`math.floor`.  Python division and floor division raise `ZeroDivisionError`
for a zero divisor, which the embedding makes explicit. -/

/-- Embeds `geo.dms` (geo.py lines 164-170): split a decimal coordinate into
(degrees, minutes, seconds). -/
def dms (deg : ℚ) : Int × Int × ℚ :=
  let d := ⌊deg⌋
  let m := ⌊(deg - d) * 60⌋
  let s := (deg - d - (m : ℚ) / 60) * 3600
  (d, m, s)

/-- Embeds `geo.decimal` (geo.py lines 173-177): combine DMS components into
a decimal coordinate. -/
def decimal (d m s : ℚ) : ℚ :=
  d + (m + s / 60) / 60

/-- Python float division: raises `ZeroDivisionError` for divisor 0. -/
def pydiv (a b : ℚ) : Except PyErr ℚ :=
  if b = 0 then .error .zeroDivisionError else .ok (a / b)

/-- Python floor division of floats: raises `ZeroDivisionError` for divisor 0,
otherwise floors the quotient. -/
def pyfloordiv (a b : ℚ) : Except PyErr Int :=
  if b = 0 then .error .zeroDivisionError else .ok ⌊a / b⌋

/-- Python floor division of ints: raises `ZeroDivisionError` for divisor 0,
otherwise the floored quotient. -/
def pyintdiv (a b : Int) : Except PyErr Int :=
  if b = 0 then .error .zeroDivisionError else .ok ⌊(a : ℚ) / (b : ℚ)⌋

/-- Python `range(a, b)` as a list of integers. -/
def pyrange (a b : Int) : List Int :=
  (List.range (b - a).toNat).map (fun (i : Nat) => a + (i : Int))

/-- Embeds `Frame._ticks` (decorations.py lines 764-787): split the span into
DMS; if the degree component reaches `n`, tick on whole degrees; else if the
minute component reaches `n`, tick on whole minutes; else tick on whole
seconds.  `per_tick` is the floored component over `n`, `n_ticks` the floored
span over the tick interval, and the ticks are `start` plus the multiples of
the interval. -/
def Frame.ticks (start stop : ℚ) (n : Int) : Except PyErr (List ℚ) := do
  let span := stop - start
  let dmsv := dms span
  let d := dmsv.1
  let m := dmsv.2.1
  let s := dmsv.2.2
  if n ≤ d then
    let perTick ← pyintdiv d n
    let q ← pydiv span (decimal (perTick : ℚ) 0 0)
    let nTicks := ⌊q⌋
    pure ((pyrange 1 (nTicks + 1)).map (fun i => start + decimal ((i * perTick : Int) : ℚ) 0 0))
  else if n ≤ m then
    let perTick ← pyintdiv m n
    let q ← pydiv span (decimal 0 (perTick : ℚ) 0)
    let nTicks := ⌊q⌋
    pure ((pyrange 1 (nTicks + 1)).map (fun i => start + decimal 0 ((i * perTick : Int) : ℚ) 0))
  else
    let perTick ← pyfloordiv s (n : ℚ)
    let q ← pydiv span (decimal 0 0 (perTick : ℚ))
    let nTicks := ⌊q⌋
    pure ((pyrange 1 (nTicks + 1)).map (fun i => start + decimal 0 0 ((i * perTick : Int) : ℚ)))

/-- Truthiness-free view of an Except result, used to state tick-list
properties without an existential: the length of the produced list, or -1
when an exception was raised. -/
def ticksLen : Except PyErr (List ℚ) → Int
  | .ok l => l.length
  | .error _ => -1

/-- Whether an Except result is a normal return. -/
def isOkE : Except PyErr (List ℚ) → Bool
  | .ok _ => true
  | .error _ => false

/-! ## geo.py and tilemap.py : real-valued projection math

These functions use transcendental functions (`sin`, `tan`, `asinh`, `atan`,
`atan2`), so they are embedded over the real numbers. -/

noncomputable section

open Real

/-- Embeds `math.radians`. -/
def radians (d : ℝ) : ℝ := d * π / 180

/-- Embeds `math.degrees`. -/
def degrees (r : ℝ) : ℝ := r * 180 / π

/-- Embeds `math.atan2` with its standard case analysis on the quadrant. -/
def atan2 (y x : ℝ) : ℝ :=
  if 0 < x then arctan (y / x)
  else if x < 0 then (if 0 ≤ y then arctan (y / x) + π else arctan (y / x) - π)
  else if 0 < y then π / 2
  else if y < 0 then -(π / 2)
  else 0

/-- Earth radius in meters (geo.py line 18). -/
def EARTH_RADIUS : ℝ := 6371 * 1000

/-- Bearing constants (geo.py lines 14-17). -/
def BRG_NORTH : ℝ := 0

/-- Bearing east. -/
def BRG_EAST : ℝ := 90

/-- Bearing south. -/
def BRG_SOUTH : ℝ := 180

/-- Bearing west. -/
def BRG_WEST : ℝ := 270

/-- Embeds the `BBox` dataclass fields (geo.py lines 21-28), with the same
defaults. -/
structure BBox where
  minlat : ℝ := -90
  minlon : ℝ := -180
  maxlat : ℝ := 90
  maxlon : ℝ := 180

/-- Embeds constructing a `BBox` (the generated dataclass init).  The class
body defines a method named with a single trailing underscore pair missing:
`__post_init` instead of the dataclass hook `__post_init__` (geo.py line 30),
so no validation whatsoever runs during construction and every field
assignment succeeds. -/
def BBox.make (minlat minlon maxlat maxlon : ℝ) : Except PyErr BBox :=
  .ok ⟨minlat, minlon, maxlat, maxlon⟩

/-- Embeds the body of the never-invoked validator `BBox.__post_init`
(geo.py lines 30-39) as written: it would reject latitudes below -90 or
above 90 and longitudes below -180 or above 180 (and checks nothing else; in
particular it never compares minlat with maxlat). -/
def BBox.post_init (b : BBox) : Except PyErr Unit :=
  if b.minlat < -90 then .error .valueError
  else if 90 < b.maxlat then .error .valueError
  else if b.minlon < -180 then .error .valueError
  else if 180 < b.maxlon then .error .valueError
  else .ok ()

/-- Embeds `geo.distance` (geo.py lines 117-137): haversine distance in
meters. -/
def distance (lat0 lon0 lat1 lon1 : ℝ) : ℝ :=
  let lat0r := radians lat0
  let lon0r := radians lon0
  let lat1r := radians lat1
  let lon1r := radians lon1
  let dLat := lat1r - lat0r
  let dLon := lon1r - lon0r
  let a := sin (dLat / 2) * sin (dLat / 2)
  let b := cos lat0r * cos lat1r * sin (dLon / 2) * sin (dLon / 2)
  let c := a + b
  let d := 2 * atan2 (sqrt c) (sqrt (1 - c))
  d * EARTH_RADIUS

/-- Embeds `geo.destination_point` (geo.py lines 140-161): spherical
destination point from a start, a bearing in degrees and a distance in
meters. -/
def destination_point (lat lon bearing dist : ℝ) : ℝ × ℝ :=
  let d := dist / EARTH_RADIUS
  let brng := radians bearing
  let latr := radians lat
  let lonr := radians lon
  let a := sin latr * cos d + cos latr * sin d * cos brng
  let latP := arcsin a
  let x := cos d - sin latr * a
  let y := sin brng * sin d * cos latr
  let lonP := lonr + atan2 y x
  (degrees latP, degrees lonP)

/-- Embeds `BBox.with_aspect` (geo.py lines 41-79).  Note that `width` is
computed from the latitude span and `height` from the longitude span, exactly
as in the source. -/
def BBox.with_aspect (b : BBox) (aspect : ℝ) : BBox :=
  if aspect = 1 then b
  else
    let lat := b.minlat
    let lon := b.minlon
    let width := distance b.minlat lon b.maxlat lon
    let height := distance lat b.minlon lat b.maxlon
    if aspect < 1 then
      let targetHeight := width / aspect
      let extendHeight := (targetHeight - height) / 2
      let newMinlat := (destination_point b.minlat lon BRG_SOUTH extendHeight).1
      let newMaxlat := (destination_point b.maxlat lon BRG_NORTH extendHeight).1
      { minlat := newMinlat, minlon := b.minlon, maxlat := newMaxlat, maxlon := b.maxlon }
    else
      let targetWidth := height * aspect
      let extendWidth := (targetWidth - width) / 2
      let newMinlon := (destination_point lat b.minlon BRG_WEST extendWidth).2
      let newMaxlon := (destination_point lat b.maxlon BRG_EAST extendWidth).2
      { minlat := b.minlat, minlon := newMinlon, maxlat := b.maxlat, maxlon := newMaxlon }

/-- East-west extent of a box in meters, measured with `geo.distance` along
the box's southern edge (the latitude `with_aspect` itself measures at). -/
def ewExtent (b : BBox) : ℝ := distance b.minlat b.minlon b.minlat b.maxlon

/-- North-south extent of a box in meters, measured with `geo.distance`
along the box's western edge. -/
def nsExtent (b : BBox) : ℝ := distance b.minlat b.minlon b.maxlat b.minlon

/-- Embeds `geo.mercator_to_lat` (geo.py lines 113-114). -/
def mercator_to_lat (mercatorY : ℝ) : ℝ := degrees (arctan (sinh mercatorY))

/-- Slippy-map latitude bound (tilemap.py line 20). -/
def MAX_LAT : ℝ := 85.0511

/-- Slippy-map latitude bound (tilemap.py line 21). -/
def MIN_LAT : ℝ := -85.0511

/-- Python `int()` conversion of a float: truncation toward zero. -/
def pyint (x : ℝ) : Int := if x < 0 then ⌈x⌉ else ⌊x⌋

/-- Embeds `tilemap._tile_coordinates` (tilemap.py lines 152-170): the tile
X and Y indices containing a point, raising `ValueError` outside the
Mercator-valid latitude range.  The `lat == -90` branch of the source is kept
although it is unreachable behind the range check. -/
def tile_coordinates (lat lon : ℝ) (zoom : ℕ) : Except PyErr (Int × Int) :=
  if lat ≤ MIN_LAT ∨ MAX_LAT ≤ lat then .error .valueError
  else
    let n : ℝ := 2 ^ zoom
    let x := (lon + 180) / 360 * n
    let y : ℝ := if lat = -90 then 0 else (1 - arsinh (tan (radians lat)) / π) / 2 * n
    .ok (pyint x, pyint y)

/-- Embeds `Tile._lat_edges` (tilemap.py lines 132-139): the northern and
southern latitude edges of tile row `y`, northern (greater) first. -/
def Tile.lat_edges (y : Int) (zoom : ℕ) : ℝ × ℝ :=
  let n : ℝ := 2 ^ zoom
  let unit := 1 / n
  let ry0 := (y : ℝ) * unit
  let ry1 := ry0 + unit
  (mercator_to_lat (π * (1 - 2 * ry0)), mercator_to_lat (π * (1 - 2 * ry1)))

/-- Embeds `Tile._lon_edges` (tilemap.py lines 141-146): the western and
eastern longitude edges of tile column `x`. -/
def Tile.lon_edges (x : Int) (zoom : ℕ) : ℝ × ℝ :=
  let n : ℝ := 2 ^ zoom
  let unit := 360 / n
  let lon0 := -180 + (x : ℝ) * unit
  (lon0, lon0 + unit)

/-- Embeds `Tile.bbox` (tilemap.py lines 109-120): the box is built with
`minlat=north, minlon=west, maxlat=south, maxlon=east` — the northern
(greater) latitude edge goes into `minlat`, exactly as the source constructs
it. -/
def Tile.bboxOf (x y : Int) (zoom : ℕ) : BBox :=
  let ns := Tile.lat_edges y zoom
  let we := Tile.lon_edges x zoom
  { minlat := ns.1, minlon := we.1, maxlat := ns.2, maxlon := we.2 }

end

/-! ## Named concrete inputs used by witnesses and counterexamples. -/

/-- A store holding one fresh entry (etag 7, mtime 100, bytes 42) for tile
(1, 2, 3). -/
def storeEx : Store := fun k => if k = (1, 2, 3) then some ⟨7, 100, 42⟩ else none

/-- A wrapped service that always raises. -/
def svcEx : SvcFn := fun _ _ _ => .error .connectionError

/-- A network where the first two attempts hit connection errors and the
third gets a 200 response. -/
def outcomesEx : Nat → ReqOutcome := fun i => if i < 2 then .connErr else .status 200

/-- A network where every attempt hits a connection error. -/
def outcomesConnEx : Nat → ReqOutcome := fun _ => .connErr

/-- A wrapped source whose fetch always raises `LookupError`. -/
def svcFailEx : Nat → Nat → Nat → Except PyErr (Option Nat × Option Nat) :=
  fun _ _ _ => .error .lookupError

/-- A wrapped source whose fetch succeeds with etag 1 and bytes 9. -/
def svcOkEx : Nat → Nat → Nat → Except PyErr (Option Nat × Option Nat) :=
  fun _ _ _ => .ok (some 1, some 9)

/-- The box 0..1 degrees latitude by 0..2 degrees longitude: twice as wide
(in meters) as it is tall. -/
noncomputable def bboxEx : BBox := ⟨0, 0, 1, 2⟩

/-- Vacuum test entry with the newer ctime but the oldest mtime. -/
def ventA : VEntry := ⟨10, 50, 1, 0⟩

/-- Vacuum test entry with the oldest ctime but the newest mtime. -/
def ventB : VEntry := ⟨1, 50, 10, 1⟩

/-! ## Claim theorems -/

/-- C3: for the 2x2 tile grid at zoom with tiles (0,0)..(1,1) and
concurrency 4, `RenderContext.build` pastes exactly 4 tiles onto the canvas
and `_tile_complete` reports the completed-counts 1, 2, 3, 4 — exactly four
tile-completion reports, strictly increasing from 1 to 4 (the queue is fully
drained). -/
theorem render_build_2x2_progress :
    RenderContext.build (TileMap.genTiles 0 0 1 1) 4 =
      ⟨[], 4, [1, 2, 3, 4], [(0, 0), (0, 1), (1, 0), (1, 1)]⟩ := by
  decide

/-- C4: one `Cache._vacuum` pass on a cache over its limit (two 50-byte
entries, limit 60) deletes the entry with the oldest `st_ctime` (ventB) and
keeps ventA — although ventA is the oldest by modification time
(ventA.mtime < ventB.mtime).  The code orders deletions by `st_ctime`, not by
mtime as its docstring and the claim state; the resulting size is within the
limit here. -/
theorem vacuum_deletes_by_ctime_not_mtime :
    Cache.vacuum (some 60) [ventA, ventB] = [ventA] ∧
    ventA.mtime < ventB.mtime ∧
    ((Cache.vacuum (some 60) [ventA, ventB]).map (fun e => e.size)).sum ≤ 60 := by
  have hv : Cache.vacuum (some 60) [ventA, ventB] = [ventA] := by
    norm_num [Cache.vacuum, VEntry.sortAll, VEntry.insert, VEntry.le, Cache.vacuumDelete,
      ventA, ventB]
  refine ⟨hv, by norm_num [ventA, ventB], ?_⟩
  rw [hv]
  norm_num [ventA]

/-- C10: every `Cache.fetch` call that supplies a freshness token hits the
read of the local variable `mtime` (assigned only on the token-less branch)
and raises `UnboundLocalError` with zero service calls and the cache state
untouched. -/
theorem cache_fetch_with_etag_unbound_local :
    ∀ (svc : SvcFn) (store : Store) (now minAge : ℚ) (k : TileKey) (t : Nat) (co : Bool),
      Cache.fetch svc store now minAge k (some t) co = ⟨.error .unboundLocalError, store, 0⟩ := by
  intro svc store now minAge k t co
  rfl

/-- C7: when the wrapped source's fetch raises, `Fallback.fetch` does not
produce a parent-tile quadrant: `_fallback` immediately raises
`AttributeError` because `Tile` has no `parent` attribute.  A succeeding
wrapped source is passed through unchanged. -/
theorem fallback_fetch_attribute_error :
    Fallback.fetch svcFailEx 3 5 4 = .error .attributeError ∧
    Fallback.fetch svcOkEx 3 5 4 = .ok (some 1, some 9) := by
  exact ⟨rfl, rfl⟩

/-- C2: constructing a `BBox` from out-of-range values does not fail — the
validator `__post_init` is never invoked by the dataclass machinery (the hook
must be spelled `__post_init__`), although its body would reject the value;
and no `minlat ≤ maxlat` ordering is enforced either, so a box with
`maxlat < minlat` is constructed without complaint. -/
theorem bbox_construction_never_validates :
    BBox.make (-90.1) 30 20 40 = .ok ⟨-90.1, 30, 20, 40⟩ ∧
    BBox.post_init ⟨-90.1, 30, 20, 40⟩ = .error .valueError ∧
    BBox.make 20 30 10 40 = .ok ⟨20, 30, 10, 40⟩ ∧
    (BBox.mk 20 30 10 40).maxlat < (BBox.mk 20 30 10 40).minlat := by
  refine ⟨rfl, ?_, rfl, by norm_num⟩
  unfold BBox.post_init
  norm_num

/-- C5: a `Cache.fetch` call without a caller-supplied token, when the entry
on disk for the key has a non-empty etag and an age below the trust window,
returns the stored token and cached bytes, leaves the cache untouched, and
never calls the wrapped service. -/
theorem cache_fetch_fresh_hit (svc : SvcFn) (store : Store) (now minAge : ℚ)
    (k : TileKey) (e : CEntryD) (hstore : store k = some e) (hetag : e.etag ≠ 0)
    (hmtime : e.mtime ≠ 0) (hage : now - e.mtime < minAge) :
    Cache.fetch svc store now minAge k none false =
      ⟨.ok (some e.etag, some e.data), store, 0⟩ := by
  unfold Cache.fetch Cache.find Cache.get
  rw [hstore]
  simp [hetag, hmtime, hage]

/-- Witness for C5 at a concrete cache state: entry (etag 7, mtime 100,
bytes 42) for tile (1,2,3), clock at 101, trust window 24. -/
theorem cache_fetch_fresh_hit_witness :
    Cache.fetch svcEx storeEx 101 24 (1, 2, 3) none false =
      ⟨.ok (some 7, some 42), storeEx, 0⟩ :=
  cache_fetch_fresh_hit svcEx storeEx 101 24 (1, 2, 3) ⟨7, 100, 42⟩ rfl
    (by decide) (by norm_num) (by norm_num)

/-- Unfolding of one `_request` attempt that receives a response: status
codes at or above 400 raise immediately, others return. -/
theorem request_status (mr k c : Nat) (o : Nat → ReqOutcome) (h : o (k - 1) = .status c) :
    TileService.request mr o k =
      (if 400 ≤ c then (.error (.httpError c), k) else (.ok c, k)) := by
  rw [TileService.request.eq_def, h]

/-- Unfolding of one `_request` attempt that hits a connection error with
retries left: retry immediately with the incremented count. -/
theorem request_conn (mr k : Nat) (o : Nat → ReqOutcome) (h : o (k - 1) = .connErr)
    (hk : k ≤ mr) :
    TileService.request mr o k = TileService.request mr o (k + 1) := by
  rw [TileService.request.eq_def, h]
  exact if_neg (Nat.not_lt.mpr hk)

/-- Unfolding of one `_request` attempt that hits a connection error with
retries exhausted: the error is re-raised. -/
theorem request_conn_exhausted (mr k : Nat) (o : Nat → ReqOutcome)
    (h : o (k - 1) = .connErr) (hk : mr < k) :
    TileService.request mr o k = (.error .connectionError, k) := by
  rw [TileService.request.eq_def, h]
  exact if_pos hk

/-- After `j` straight connection errors starting at attempt index `a`, the
retry loop reaches attempt `a + j` and its response decides the outcome. -/
theorem request_after_conns (j : Nat) :
    ∀ (a mr c : Nat) (o : Nat → ReqOutcome),
      (∀ i, a ≤ i → i < a + j → o i = .connErr) →
      a + 1 + j ≤ mr + 1 → o (a + j) = .status c →
      TileService.request mr o (a + 1) =
        (if 400 ≤ c then (.error (.httpError c), a + j + 1) else (.ok c, a + j + 1)) := by
  induction j with
  | zero =>
      intro a mr c o _ _ hstat
      have h0 : o (a + 1 - 1) = .status c := by simpa using hstat
      simpa using request_status mr (a + 1) c o h0
  | succ j ih =>
      intro a mr c o hconn hle hstat
      have hc0 : o (a + 1 - 1) = .connErr := by
        simpa using hconn a le_rfl (by omega)
      have hkmr : a + 1 ≤ mr := by omega
      rw [request_conn mr (a + 1) o hc0 hkmr]
      rw [show a + (j + 1) = a + 1 + j by omega] at hstat
      rw [show a + (j + 1) + 1 = a + 1 + j + 1 by omega]
      exact ih (a + 1) mr c o (fun i h1 h2 => hconn i (by omega) (by omega)) (by omega) hstat

/-- When every attempt up to the retry bound hits a connection error, the
loop raises after exactly `max_retries + 1` attempts. -/
theorem request_all_conn (j : Nat) :
    ∀ (mr : Nat) (o : Nat → ReqOutcome), (∀ i, i ≤ mr → o i = .connErr) → j ≤ mr →
      TileService.request mr o (mr + 1 - j) = (.error .connectionError, mr + 1) := by
  induction j with
  | zero =>
      intro mr o hconn _
      have hc : o (mr + 1 - 1) = .connErr := by simpa using hconn mr le_rfl
      simpa using request_conn_exhausted mr (mr + 1) o hc (by omega)
  | succ j ih =>
      intro mr o hconn hj
      have hk : mr + 1 - (j + 1) ≤ mr := by omega
      have hc : o (mr + 1 - (j + 1) - 1) = .connErr := hconn _ (by omega)
      rw [request_conn mr _ o hc hk]
      rw [show mr + 1 - (j + 1) + 1 = mr + 1 - j by omega]
      exact ih mr o hconn (by omega)

/-- C6: `TileService._request` retries only connection/timeout errors,
immediately, and at most `max_retries` times (`max_retries + 1` attempts in
total) before the error is raised; a response with an HTTP error status
(>= 400) is never retried — it propagates from the attempt that received it,
in particular from the very first attempt. -/
theorem tileservice_retry_policy (mr j c : Nat) (o : Nat → ReqOutcome) :
    (400 ≤ c → o 0 = .status c →
      TileService.requestStart mr o = (.error (.httpError c), 1)) ∧
    ((∀ i, i < j → o i = .connErr) → j ≤ mr → o j = .status c →
      TileService.requestStart mr o =
        (if 400 ≤ c then (.error (.httpError c), j + 1) else (.ok c, j + 1))) ∧
    ((∀ i, i ≤ mr → o i = .connErr) →
      TileService.requestStart mr o = (.error .connectionError, mr + 1)) := by
  refine ⟨?_, ?_, ?_⟩
  · intro hc hstat
    have h0 : o (1 - 1) = .status c := by simpa using hstat
    rw [TileService.requestStart, request_status mr 1 c o h0, if_pos hc]
  · intro hconn hj hstat
    have h := request_after_conns j 0 mr c o
      (fun i h1 h2 => hconn i (by omega)) (by omega) (by simpa using hstat)
    simpa [TileService.requestStart] using h
  · intro hconn
    have h := request_all_conn mr mr o hconn le_rfl
    simpa [TileService.requestStart] using h

/-- Witness for C6: with `max_retries = 3`, two connection errors followed by
a 200 response succeed on the third attempt; four straight connection errors
exhaust the retries and raise after 4 attempts. -/
theorem tileservice_retry_policy_witness :
    TileService.requestStart 3 outcomesEx = (.ok 200, 3) ∧
    TileService.requestStart 3 outcomesConnEx = (.error .connectionError, 4) := by
  constructor
  · have h := (tileservice_retry_policy 3 2 200 outcomesEx).2.1
      (by decide) (by decide) (by decide)
    norm_num at h
    exact h
  · exact (tileservice_retry_policy 3 0 0 outcomesConnEx).2.2 (by decide)

/-- The degree component of `dms`. -/
theorem dms_fst (x : ℚ) : (dms x).1 = ⌊x⌋ := rfl

/-- The minute component of `dms`. -/
theorem dms_snd (x : ℚ) : (dms x).2.1 = ⌊(x - ⌊x⌋) * 60⌋ := rfl

/-- The second component of `dms`. -/
theorem dms_thd (x : ℚ) :
    (dms x).2.2 = (x - ⌊x⌋ - (⌊(x - ⌊x⌋) * 60⌋ : ℚ) / 60) * 3600 := rfl

/-- The seconds component of a span is never negative. -/
theorem dms_s_nonneg (x : ℚ) : 0 ≤ (dms x).2.2 := by
  rw [dms_thd]
  nlinarith [Int.floor_le ((x - ⌊x⌋) * 60)]

/-- The minutes component of a span is never negative. -/
theorem dms_m_nonneg (x : ℚ) : 0 ≤ (dms x).2.1 := by
  rw [dms_snd]
  have h : (0 : ℚ) ≤ (x - ⌊x⌋) * 60 := by
    nlinarith [Int.floor_le x]
  exact Int.floor_nonneg.mpr h

/-- Value of `decimal` on a pure degree argument. -/
theorem decimal_d (x : ℚ) : decimal x 0 0 = x := by
  simp [decimal]

/-- Value of `decimal` on a pure minute argument. -/
theorem decimal_m (x : ℚ) : decimal 0 x 0 = x / 60 := by
  rw [decimal]
  ring

/-- Value of `decimal` on a pure second argument. -/
theorem decimal_s (x : ℚ) : decimal 0 0 x = x / 3600 := by
  rw [decimal]
  ring

/-- Length of a mapped python range. -/
theorem pyrange_map_length {α : Type} (f : Int → α) (a b : Int) :
    ((pyrange a b).map f).length = (b - a).toNat := by
  rw [List.length_map, pyrange, List.length_map, List.length_range]

/-- Lower bound for the floored tick count. -/
theorem nticks_ge (span dec : ℚ) (n : Int) (hdec : 0 < dec)
    (hle : (n : ℚ) * dec ≤ span) : n ≤ ⌊span / dec⌋ := by
  apply Int.le_floor.mpr
  rw [le_div_iff₀ hdec]
  exact hle

/-- In the degrees branch (degree component at least `n`), `_ticks` returns
normally with at least `n` ticks. -/
theorem ticks_deg_ok (start stop : ℚ) (n : Int) (hn : 0 < n)
    (hd : n ≤ (dms (stop - start)).1) :
    isOkE (Frame.ticks start stop n) = true ∧ n ≤ ticksLen (Frame.ticks start stop n) := by
  have hnne : n ≠ 0 := by omega
  have hnq : (0 : ℚ) < (n : ℚ) := by exact_mod_cast hn
  have hpt1 : (1 : Int) ≤ ⌊((dms (stop - start)).1 : ℚ) / (n : ℚ)⌋ := by
    apply Int.le_floor.mpr
    rw [le_div_iff₀ hnq]
    have h : (n : ℚ) ≤ ((dms (stop - start)).1 : ℚ) := by exact_mod_cast hd
    push_cast
    linarith
  set pt : Int := ⌊((dms (stop - start)).1 : ℚ) / (n : ℚ)⌋ with hpt_def
  have hptq : (0 : ℚ) < (pt : ℚ) := by
    have h : (0 : Int) < pt := by omega
    exact_mod_cast h
  have hptne : (pt : ℚ) ≠ 0 := ne_of_gt hptq
  have hmul : (n : ℚ) * (pt : ℚ) ≤ stop - start := by
    have h1 : (pt : ℚ) ≤ ((dms (stop - start)).1 : ℚ) / (n : ℚ) := Int.floor_le _
    have h2 : ((dms (stop - start)).1 : ℚ) ≤ stop - start := by
      rw [dms_fst]
      exact Int.floor_le _
    have h3 : (n : ℚ) * (pt : ℚ) ≤ ((dms (stop - start)).1 : ℚ) := by
      rw [mul_comm]
      calc (pt : ℚ) * (n : ℚ) ≤ ((dms (stop - start)).1 : ℚ) / (n : ℚ) * (n : ℚ) := by
            exact mul_le_mul_of_nonneg_right h1 hnq.le
        _ = ((dms (stop - start)).1 : ℚ) := div_mul_cancel₀ _ (ne_of_gt hnq)
    linarith
  have hnt : n ≤ ⌊(stop - start) / (pt : ℚ)⌋ := nticks_ge _ _ n hptq hmul
  have heval : Frame.ticks start stop n =
      .ok ((pyrange 1 (⌊(stop - start) / (pt : ℚ)⌋ + 1)).map
        (fun i => start + decimal ((i * pt : Int) : ℚ) 0 0)) := by
    simp only [Frame.ticks, pyintdiv, pydiv, if_neg hnne, decimal_d]
    simp only [← hpt_def, if_pos hd, Bind.bind, Except.bind, if_neg hptne, Pure.pure,
      Except.pure]
  rw [heval]
  constructor
  · rfl
  · show n ≤ ticksLen (.ok _)
    rw [ticksLen, pyrange_map_length]
    have h4 : ⌊(stop - start) / (pt : ℚ)⌋ + 1 - 1 = ⌊(stop - start) / (pt : ℚ)⌋ := by ring
    rw [h4, Int.toNat_of_nonneg (by omega)]
    exact hnt

/-- In the minutes branch (degree component below `n`, minute component at
least `n`), `_ticks` returns normally with at least `n` ticks. -/
theorem ticks_min_ok (start stop : ℚ) (n : Int) (hn : 0 < n) (hse : start ≤ stop)
    (hd : ¬ n ≤ (dms (stop - start)).1) (hm : n ≤ (dms (stop - start)).2.1) :
    isOkE (Frame.ticks start stop n) = true ∧ n ≤ ticksLen (Frame.ticks start stop n) := by
  have hnne : n ≠ 0 := by omega
  have hnq : (0 : ℚ) < (n : ℚ) := by exact_mod_cast hn
  have hpt1 : (1 : Int) ≤ ⌊((dms (stop - start)).2.1 : ℚ) / (n : ℚ)⌋ := by
    apply Int.le_floor.mpr
    rw [le_div_iff₀ hnq]
    have h : (n : ℚ) ≤ ((dms (stop - start)).2.1 : ℚ) := by exact_mod_cast hm
    push_cast
    linarith
  set pt : Int := ⌊((dms (stop - start)).2.1 : ℚ) / (n : ℚ)⌋ with hpt_def
  have hptq : (0 : ℚ) < (pt : ℚ) := by
    have h : (0 : Int) < pt := by omega
    exact_mod_cast h
  have hdecq : (0 : ℚ) < (pt : ℚ) / 60 := by positivity
  have hdecne : (pt : ℚ) / 60 ≠ 0 := ne_of_gt hdecq
  have hspan0 : (0 : ℚ) ≤ stop - start := by linarith
  have hfl0 : (0 : ℚ) ≤ ((⌊stop - start⌋ : Int) : ℚ) := by
    have h : (0 : Int) ≤ ⌊stop - start⌋ := Int.floor_nonneg.mpr hspan0
    exact_mod_cast h
  have hmul : (n : ℚ) * ((pt : ℚ) / 60) ≤ stop - start := by
    have h1 : (pt : ℚ) ≤ ((dms (stop - start)).2.1 : ℚ) / (n : ℚ) := Int.floor_le _
    have h3 : (n : ℚ) * (pt : ℚ) ≤ ((dms (stop - start)).2.1 : ℚ) := by
      rw [mul_comm]
      calc (pt : ℚ) * (n : ℚ)
          ≤ ((dms (stop - start)).2.1 : ℚ) / (n : ℚ) * (n : ℚ) :=
            mul_le_mul_of_nonneg_right h1 hnq.le
        _ = ((dms (stop - start)).2.1 : ℚ) := div_mul_cancel₀ _ (ne_of_gt hnq)
    have h4 : ((dms (stop - start)).2.1 : ℚ) ≤ (stop - start - (⌊stop - start⌋ : Int)) * 60 := by
      rw [dms_snd]
      exact Int.floor_le _
    linarith
  have hnt : n ≤ ⌊(stop - start) / ((pt : ℚ) / 60)⌋ := nticks_ge _ _ n hdecq hmul
  have heval : Frame.ticks start stop n =
      .ok ((pyrange 1 (⌊(stop - start) / ((pt : ℚ) / 60)⌋ + 1)).map
        (fun i => start + decimal 0 ((i * pt : Int) : ℚ) 0)) := by
    simp only [Frame.ticks, pyintdiv, pydiv, if_neg hnne, decimal_m]
    simp only [← hpt_def, if_neg hd, if_pos hm, Bind.bind, Except.bind, if_neg hdecne,
      Pure.pure, Except.pure]
  rw [heval]
  refine ⟨rfl, ?_⟩
  show n ≤ ticksLen (.ok _)
  rw [ticksLen, pyrange_map_length]
  have h4 : ⌊(stop - start) / ((pt : ℚ) / 60)⌋ + 1 - 1 = ⌊(stop - start) / ((pt : ℚ) / 60)⌋ := by
    ring
  rw [h4, Int.toNat_of_nonneg (by omega)]
  exact hnt

/-- In the seconds branch (degree and minute components below `n`, floored
seconds-per-tick at least 1), `_ticks` returns normally with at least `n`
ticks. -/
theorem ticks_sec_ok (start stop : ℚ) (n : Int) (hn : 0 < n) (hse : start ≤ stop)
    (hd : ¬ n ≤ (dms (stop - start)).1) (hm : ¬ n ≤ (dms (stop - start)).2.1)
    (hs : 1 ≤ ⌊(dms (stop - start)).2.2 / (n : ℚ)⌋) :
    isOkE (Frame.ticks start stop n) = true ∧ n ≤ ticksLen (Frame.ticks start stop n) := by
  have hnne : n ≠ 0 := by omega
  have hnq : (0 : ℚ) < (n : ℚ) := by exact_mod_cast hn
  have hnqne : (n : ℚ) ≠ 0 := ne_of_gt hnq
  set pt : Int := ⌊(dms (stop - start)).2.2 / (n : ℚ)⌋ with hpt_def
  have hptq : (0 : ℚ) < (pt : ℚ) := by
    have h : (0 : Int) < pt := by omega
    exact_mod_cast h
  have hdecq : (0 : ℚ) < (pt : ℚ) / 3600 := by positivity
  have hdecne : (pt : ℚ) / 3600 ≠ 0 := ne_of_gt hdecq
  have hspan0 : (0 : ℚ) ≤ stop - start := by linarith
  have hfl0 : (0 : ℚ) ≤ ((⌊stop - start⌋ : Int) : ℚ) := by
    have h : (0 : Int) ≤ ⌊stop - start⌋ := Int.floor_nonneg.mpr hspan0
    exact_mod_cast h
  have hm0 : (0 : ℚ) ≤ ((dms (stop - start)).2.1 : ℚ) := by
    exact_mod_cast dms_m_nonneg (stop - start)
  have hmul : (n : ℚ) * ((pt : ℚ) / 3600) ≤ stop - start := by
    have h1 : (pt : ℚ) ≤ (dms (stop - start)).2.2 / (n : ℚ) := Int.floor_le _
    have h3 : (n : ℚ) * (pt : ℚ) ≤ (dms (stop - start)).2.2 := by
      rw [mul_comm]
      calc (pt : ℚ) * (n : ℚ)
          ≤ (dms (stop - start)).2.2 / (n : ℚ) * (n : ℚ) :=
            mul_le_mul_of_nonneg_right h1 hnq.le
        _ = (dms (stop - start)).2.2 := div_mul_cancel₀ _ hnqne
    have h4 : (dms (stop - start)).2.2 ≤ (stop - start) * 3600 := by
      rw [dms_thd]
      have hm0q : (0 : ℚ) ≤ ((⌊(stop - start - (⌊stop - start⌋ : Int)) * 60⌋ : Int) : ℚ) := by
        have h := dms_m_nonneg (stop - start)
        rw [dms_snd] at h
        exact_mod_cast h
      linarith [hm0q, hfl0]
    linarith
  have hnt : n ≤ ⌊(stop - start) / ((pt : ℚ) / 3600)⌋ := nticks_ge _ _ n hdecq hmul
  have heval : Frame.ticks start stop n =
      .ok ((pyrange 1 (⌊(stop - start) / ((pt : ℚ) / 3600)⌋ + 1)).map
        (fun i => start + decimal 0 0 ((i * pt : Int) : ℚ))) := by
    simp only [Frame.ticks, pyfloordiv, pydiv, if_neg hnqne, decimal_s]
    simp only [← hpt_def, if_neg hd, if_neg hm, Bind.bind, Except.bind, if_neg hdecne,
      Pure.pure, Except.pure]
  rw [heval]
  refine ⟨rfl, ?_⟩
  show n ≤ ticksLen (.ok _)
  rw [ticksLen, pyrange_map_length]
  have h4 : ⌊(stop - start) / ((pt : ℚ) / 3600)⌋ + 1 - 1 =
      ⌊(stop - start) / ((pt : ℚ) / 3600)⌋ := by ring
  rw [h4, Int.toNat_of_nonneg (by omega)]
  exact hnt

/-- When no component reaches the target and the floored seconds-per-tick is
zero, `_ticks` divides the span by `decimal(s=0) = 0` and raises
`ZeroDivisionError`. -/
theorem ticks_crash (start stop : ℚ) (n : Int) (hn : 0 < n)
    (hd : ¬ n ≤ (dms (stop - start)).1) (hm : ¬ n ≤ (dms (stop - start)).2.1)
    (hpt : ⌊(dms (stop - start)).2.2 / (n : ℚ)⌋ = 0) :
    Frame.ticks start stop n = .error .zeroDivisionError := by
  have hnne : n ≠ 0 := by omega
  simp [Frame.ticks, pyfloordiv, pydiv, if_neg hd, if_neg hm, hnne, hpt, decimal,
    Bind.bind, Except.bind, Functor.map, Except.map]

/-- C9 (amended): `Frame._ticks` searches only the units degrees, minutes
and seconds (there is no half-minute candidate).  Whenever one of the three
branch guards holds — the span's degree component reaches the target `n`,
its minute component does, or the floored seconds-per-tick interval is
nonzero — the call returns normally and produces at least `n` ticks.  When
no guard holds (d < n, m < n and s // n == 0), the call raises
`ZeroDivisionError` instead of producing ticks. -/
theorem frame_ticks_selection (start stop : ℚ) (n : Int) (hn : 0 < n) (hse : start ≤ stop) :
    ((n ≤ (dms (stop - start)).1 ∨ n ≤ (dms (stop - start)).2.1 ∨
        1 ≤ ⌊(dms (stop - start)).2.2 / (n : ℚ)⌋) →
      isOkE (Frame.ticks start stop n) = true ∧ n ≤ ticksLen (Frame.ticks start stop n)) ∧
    (((dms (stop - start)).1 < n ∧ (dms (stop - start)).2.1 < n ∧
        ⌊(dms (stop - start)).2.2 / (n : ℚ)⌋ = 0) →
      Frame.ticks start stop n = .error .zeroDivisionError) := by
  constructor
  · intro hsucc
    by_cases hd : n ≤ (dms (stop - start)).1
    · exact ticks_deg_ok start stop n hn hd
    · by_cases hm : n ≤ (dms (stop - start)).2.1
      · exact ticks_min_ok start stop n hn hse hd hm
      · have hs : 1 ≤ ⌊(dms (stop - start)).2.2 / (n : ℚ)⌋ := by tauto
        exact ticks_sec_ok start stop n hn hse hd hm hs
  · rintro ⟨h1, h2, h3⟩
    exact ticks_crash start stop n hn (not_le.mpr h1) (not_le.mpr h2) h3

/-- Witness for C9 at the span 0..10 degrees with the default target 8:
the degrees branch applies and at least 8 ticks come back. -/
theorem frame_ticks_selection_witness :
    isOkE (Frame.ticks 0 10 8) = true ∧ (8 : Int) ≤ ticksLen (Frame.ticks 0 10 8) :=
  (frame_ticks_selection 0 10 8 (by norm_num) (by norm_num)).1
    (Or.inl (by rw [dms_fst]; norm_num))

/-- Counterexample for C9 as frozen: for the span 0..0.1 degrees (six
minutes) and the default target 8, the claimed four-unit search would pick
half-minute ticks (12 of them); the code instead raises `ZeroDivisionError`
and produces no ticks at all. -/
theorem frame_ticks_small_span_crash :
    Frame.ticks 0 (1 / 10) 8 = .error .zeroDivisionError := by
  apply ticks_crash 0 (1 / 10) 8 (by norm_num)
  · rw [not_le, dms_fst]
    norm_num
  · rw [not_le, dms_snd]
    norm_num
  · rw [dms_thd]
    norm_num

section
open Real

/-- On the right half plane `atan2` inverts `(sin, cos)`. -/
theorem atan2_sin_cos (θ : ℝ) (h1 : -(π / 2) < θ) (h2 : θ < π / 2) :
    atan2 (Real.sin θ) (Real.cos θ) = θ := by
  have hc : 0 < Real.cos θ := Real.cos_pos_of_mem_Ioo ⟨h1, h2⟩
  rw [atan2, if_pos hc, ← Real.tan_eq_sin_div_cos, Real.arctan_tan h1 h2]

/-- The haversine core evaluates to the central angle for small angles. -/
theorem dist_core (θ : ℝ) (h0 : 0 ≤ θ) (h2 : θ < π / 2) :
    atan2 (Real.sqrt (Real.sin θ * Real.sin θ))
        (Real.sqrt (1 - Real.sin θ * Real.sin θ)) = θ := by
  have hπ := Real.pi_pos
  have hsin : 0 ≤ Real.sin θ := Real.sin_nonneg_of_nonneg_of_le_pi h0 (by linarith)
  have hcos : 0 < Real.cos θ := Real.cos_pos_of_mem_Ioo ⟨by linarith, h2⟩
  have hsq : 1 - Real.sin θ * Real.sin θ = Real.cos θ * Real.cos θ := by
    nlinarith [Real.sin_sq_add_cos_sq θ]
  rw [Real.sqrt_mul_self hsin, hsq, Real.sqrt_mul_self hcos.le,
    atan2_sin_cos θ (by linarith) h2]

/-- Haversine distance along a meridian for one degree of latitude. -/
theorem distance_ns_deg : distance 0 0 1 0 = 2 * (π / 360) * EARTH_RADIUS := by
  have h0 : radians 0 = 0 := by simp [radians]
  have h2 : radians 1 / 2 = π / 360 := by rw [radians]; ring
  simp only [distance, h0, sub_zero]
  norm_num [Real.sin_zero]
  rw [h2]
  exact Or.inl (dist_core (π / 360) (by positivity) (by linarith [Real.pi_pos]))

/-- Haversine distance along the equator for two degrees of longitude. -/
theorem distance_ew_deg : distance 0 0 0 2 = 2 * (π / 180) * EARTH_RADIUS := by
  have h0 : radians 0 = 0 := by simp [radians]
  have h2 : radians 2 / 2 = π / 180 := by rw [radians]; ring
  simp only [distance, h0, sub_zero]
  norm_num [Real.sin_zero, Real.cos_zero]
  rw [h2]
  exact Or.inl (dist_core (π / 180) (by positivity) (by linarith [Real.pi_pos]))

/-- C8 counterexample: for the box 0..1 degree latitude by 0..2 degrees
longitude, `with_aspect(1.0)` returns the box unchanged, yet its east-west
over north-south extent in meters is 2, not the requested aspect 1.  So the
claimed meter-ratio equality fails. -/
theorem with_aspect_unit_ratio_counterexample :
    BBox.with_aspect bboxEx 1 = bboxEx ∧
    ewExtent (BBox.with_aspect bboxEx 1) / nsExtent (BBox.with_aspect bboxEx 1) = 2 ∧
    ewExtent (BBox.with_aspect bboxEx 1) / nsExtent (BBox.with_aspect bboxEx 1) ≠ 1 := by
  have hπ := Real.pi_pos
  have hid : BBox.with_aspect bboxEx 1 = bboxEx := by
    rw [BBox.with_aspect, if_pos rfl]
  have hew : ewExtent bboxEx = 2 * (π / 180) * EARTH_RADIUS := by
    rw [ewExtent]
    show distance bboxEx.minlat bboxEx.minlon bboxEx.minlat bboxEx.maxlon = _
    rw [show bboxEx.minlat = 0 from rfl, show bboxEx.minlon = 0 from rfl,
      show bboxEx.maxlon = 2 from rfl]
    exact distance_ew_deg
  have hns : nsExtent bboxEx = 2 * (π / 360) * EARTH_RADIUS := by
    rw [nsExtent]
    rw [show bboxEx.minlat = 0 from rfl, show bboxEx.minlon = 0 from rfl,
      show bboxEx.maxlat = 1 from rfl]
    exact distance_ns_deg
  have herad : EARTH_RADIUS ≠ 0 := by norm_num [EARTH_RADIUS]
  have hratio : ewExtent bboxEx / nsExtent bboxEx = 2 := by
    rw [hew, hns]
    field_simp
    ring
  rw [hid]
  exact ⟨rfl, hratio, by rw [hratio]; norm_num⟩

/-- C8 (amended): `with_aspect` with aspect exactly 1.0 returns the box
unchanged whatever its actual meter ratio; for aspect below 1 only the
latitude bounds are modified, and for aspect above 1 only the longitude
bounds are modified (the axis is selected by comparing the aspect with 1,
not by which axis is deficient). -/
theorem with_aspect_structure (b : BBox) (a : ℝ) :
    (a = 1 → BBox.with_aspect b a = b) ∧
    (a < 1 → (BBox.with_aspect b a).minlon = b.minlon ∧
      (BBox.with_aspect b a).maxlon = b.maxlon) ∧
    (1 < a → (BBox.with_aspect b a).minlat = b.minlat ∧
      (BBox.with_aspect b a).maxlat = b.maxlat) := by
  refine ⟨?_, ?_, ?_⟩
  · intro h
    rw [BBox.with_aspect, if_pos h]
  · intro h
    have hne : a ≠ 1 := ne_of_lt h
    simp [BBox.with_aspect, hne, h]
  · intro h
    have hne : a ≠ 1 := ne_of_gt h
    have hnlt : ¬ a < 1 := not_lt.mpr h.le
    simp [BBox.with_aspect, hne, hnlt]

/-- Witness for C8's amended statement: at aspect 1 the example box comes
back unchanged, and at aspect 1/2 its longitude bounds are untouched. -/
theorem with_aspect_structure_witness :
    BBox.with_aspect bboxEx 1 = bboxEx ∧
    (BBox.with_aspect bboxEx (1 / 2)).minlon = bboxEx.minlon :=
  ⟨(with_aspect_structure bboxEx 1).1 rfl,
   ((with_aspect_structure bboxEx (1 / 2)).2.1 (by norm_num)).1⟩

end

section
open Real

/-- C1: at lat=0, lon=0, zoom=0, `_tile_coordinates` yields tile (0, 0), but
that tile's bbox swaps the latitude fields: `minlat` holds the northern edge
(≈ 85.05, positive) and `maxlat` the southern edge (negative), so the claimed
containment `minlat ≤ lat ∧ lat ≤ maxlat` fails at the very point the tile
was computed for. -/
theorem tile_bbox_swapped_at_origin :
    tile_coordinates 0 0 0 = .ok (0, 0) ∧
    0 < (Tile.bboxOf 0 0 0).minlat ∧
    (Tile.bboxOf 0 0 0).maxlat < 0 ∧
    ¬ ((Tile.bboxOf 0 0 0).minlat ≤ 0 ∧ 0 ≤ (Tile.bboxOf 0 0 0).maxlat) := by
  have hsinh : 0 < Real.sinh π := by
    have h := Real.sinh_lt_sinh.mpr Real.pi_pos
    rwa [Real.sinh_zero] at h
  have harctan : 0 < Real.arctan (Real.sinh π) := by
    have h := Real.arctan_strictMono hsinh
    rwa [Real.arctan_zero] at h
  have hcoord : tile_coordinates 0 0 0 = .ok (0, 0) := by
    simp only [tile_coordinates]
    rw [if_neg (by norm_num [MIN_LAT, MAX_LAT])]
    have hx : pyint ((0 + 180) / 360 * (2 : ℝ) ^ (0 : ℕ)) = 0 := by
      rw [pyint, if_neg (by norm_num)]
      norm_num
    have hy : pyint (if (0 : ℝ) = -90 then 0
        else (1 - Real.arsinh (Real.tan (radians 0)) / π) / 2 * (2 : ℝ) ^ (0 : ℕ)) = 0 := by
      rw [if_neg (by norm_num)]
      rw [show radians 0 = 0 by simp [radians], Real.tan_zero, Real.arsinh_zero]
      rw [pyint, if_neg (by norm_num)]
      norm_num
    rw [hx, hy]
  have e1 : (Tile.bboxOf 0 0 0).minlat = degrees (Real.arctan (Real.sinh π)) := by
    simp only [Tile.bboxOf, Tile.lat_edges, mercator_to_lat]
    norm_num
  have e2 : (Tile.bboxOf 0 0 0).maxlat = degrees (Real.arctan (Real.sinh (-π))) := by
    simp only [Tile.bboxOf, Tile.lat_edges, mercator_to_lat]
    norm_num
  have hpos : 0 < (Tile.bboxOf 0 0 0).minlat := by
    rw [e1, degrees]
    exact div_pos (mul_pos harctan (by norm_num)) Real.pi_pos
  have hneg : (Tile.bboxOf 0 0 0).maxlat < 0 := by
    rw [e2, degrees]
    have h1 : Real.arctan (Real.sinh (-π)) < 0 := by
      rw [Real.sinh_neg, Real.arctan_neg]
      linarith
    exact div_neg_of_neg_of_pos (mul_neg_of_neg_of_pos h1 (by norm_num)) Real.pi_pos
  refine ⟨hcoord, hpos, hneg, ?_⟩
  rintro ⟨ha, _⟩
  linarith

end

/-- Size of the surviving entries after the vacuum deletion loop: the loop
frees at least the requested excess (or empties the cache). -/
theorem vacuumDelete_sum_le (ex : ℚ) (l : List VEntry) :
    ((Cache.vacuumDelete ex l).map (fun e => e.size)).sum ≤
      max 0 ((l.map (fun e => e.size)).sum - ex) := by
  induction l generalizing ex with
  | nil => simp [Cache.vacuumDelete]
  | cons e rest ih =>
      rw [Cache.vacuumDelete]
      by_cases h : ex - e.size ≤ 0
      · rw [if_pos h]
        simp only [List.map_cons, List.sum_cons]
        exact le_max_of_le_right (by linarith)
      · rw [if_neg h]
        refine (ih (ex - e.size)).trans (le_of_eq ?_)
        simp only [List.map_cons, List.sum_cons]
        congr 1
        ring

/-- Inserting an entry adds its size to the total. -/
theorem insert_sum (e : VEntry) (l : List VEntry) :
    ((VEntry.insert e l).map (fun x => x.size)).sum =
      e.size + (l.map (fun x => x.size)).sum := by
  induction l with
  | nil => simp [VEntry.insert]
  | cons f rest ih =>
      rw [VEntry.insert]
      by_cases h : VEntry.le e f
      · rw [if_pos h]
        simp
      · rw [if_neg h]
        simp only [List.map_cons, List.sum_cons, ih]
        ring

/-- The vacuum sort preserves the total size. -/
theorem sortAll_sum (l : List VEntry) :
    ((VEntry.sortAll l).map (fun x => x.size)).sum = (l.map (fun x => x.size)).sum := by
  induction l with
  | nil => rfl
  | cons e rest ih =>
      rw [VEntry.sortAll, insert_sum, ih]
      simp

/-- Supplement to C4: the part of the claim that is true.  For any positive
byte limit, one vacuum pass leaves the total stored size at or below the
limit (the deletion loop frees at least 110 percent of the excess, or
deletes everything). -/
theorem vacuum_size_le (lim : ℚ) (hlim : 0 < lim) (entries : List VEntry) :
    ((Cache.vacuum (some lim) entries).map (fun e => e.size)).sum ≤ lim := by
  simp only [Cache.vacuum]
  rw [if_neg (ne_of_gt hlim)]
  by_cases h : (entries.map (fun e => e.size)).sum - lim ≤ 0
  · rw [if_pos h]
    linarith
  · rw [if_neg h]
    refine (vacuumDelete_sum_le _ _).trans ?_
    rw [sortAll_sum]
    have hex : 0 < (entries.map (fun e => e.size)).sum - lim := lt_of_not_le h
    apply max_le hlim.le
    linarith

section
open Real

/-- Monotonicity of `mercator_to_lat`. -/
theorem mercator_to_lat_le (a b : ℝ) (h : a ≤ b) :
    mercator_to_lat a ≤ mercator_to_lat b := by
  rw [mercator_to_lat, mercator_to_lat, degrees, degrees,
    div_le_div_right Real.pi_pos]
  have h1 : Real.sinh a ≤ Real.sinh b := Real.sinh_le_sinh.mpr h
  have h2 : Real.arctan (Real.sinh a) ≤ Real.arctan (Real.sinh b) :=
    Real.arctan_strictMono.monotone h1
  nlinarith

/-- The inverse Mercator projection undoes the forward projection used by
`_tile_coordinates`, for latitudes strictly between the poles. -/
theorem mercator_roundtrip (lat : ℝ) (h1 : -90 < lat) (h2 : lat < 90) :
    mercator_to_lat (Real.arsinh (Real.tan (radians lat))) = lat := by
  have hπ := Real.pi_pos
  have hr1 : -(π / 2) < radians lat := by
    rw [radians]
    nlinarith [mul_pos (by linarith : (0 : ℝ) < lat + 90) hπ]
  have hr2 : radians lat < π / 2 := by
    rw [radians]
    nlinarith [mul_pos (by linarith : (0 : ℝ) < 90 - lat) hπ]
  rw [mercator_to_lat, Real.sinh_arsinh, Real.arctan_tan hr1 hr2, degrees, radians]
  field_simp

/-- Supplement to C1: the intended containment is real, with the latitude
fields swapped.  For a latitude strictly inside the slippy-map range (with
its Mercator value within the world band, i.e. `asinh(tan(lat)) <= pi`) and
a longitude within -180..180, `_tile_coordinates` succeeds and the resulting
tile's bbox brackets the point as `maxlat <= lat <= minlat` and
`minlon <= lon <= maxlon`. -/
theorem tile_coordinates_between_edges (lat lon : ℝ) (zoom : ℕ)
    (hlat1 : MIN_LAT < lat) (hlat2 : lat < MAX_LAT)
    (hlon1 : -180 ≤ lon) (hlon2 : lon ≤ 180)
    (hm : Real.arsinh (Real.tan (radians lat)) ≤ π) :
    ∃ x y : Int, tile_coordinates lat lon zoom = .ok (x, y) ∧
      (Tile.bboxOf x y zoom).maxlat ≤ lat ∧ lat ≤ (Tile.bboxOf x y zoom).minlat ∧
      (Tile.bboxOf x y zoom).minlon ≤ lon ∧ lon ≤ (Tile.bboxOf x y zoom).maxlon := by
  have hπ := Real.pi_pos
  have hlat1q : (-85.0511 : ℝ) < lat := by
    rw [MIN_LAT] at hlat1
    exact_mod_cast hlat1
  have hlat2q : lat < (85.0511 : ℝ) := by
    rw [MAX_LAT] at hlat2
    exact_mod_cast hlat2
  have hn : (0 : ℝ) < (2 : ℝ) ^ zoom := by positivity
  have hnne : ((2 : ℝ) ^ zoom) ≠ 0 := ne_of_gt hn
  have hlatne : lat ≠ -90 := by linarith
  set n : ℝ := (2 : ℝ) ^ zoom with hn_def
  set m : ℝ := Real.arsinh (Real.tan (radians lat)) with hm_def
  set xf : ℝ := (lon + 180) / 360 * n with hxf_def
  set yf : ℝ := (1 - m / π) / 2 * n with hyf_def
  have hxf0 : 0 ≤ xf := by
    rw [hxf_def]
    exact mul_nonneg (div_nonneg (by linarith) (by norm_num)) hn.le
  have hmπ : m / π ≤ 1 := (div_le_one hπ).mpr hm
  have hyf0 : 0 ≤ yf := by
    rw [hyf_def]
    exact mul_nonneg (div_nonneg (by linarith) (by norm_num)) hn.le
  have hcoord : tile_coordinates lat lon zoom = .ok (⌊xf⌋, ⌊yf⌋) := by
    simp only [tile_coordinates]
    rw [if_neg (by push_neg; exact ⟨hlat1, hlat2⟩)]
    rw [if_neg hlatne]
    rw [pyint, if_neg (not_lt.mpr hxf0), pyint, if_neg (not_lt.mpr hyf0)]
  refine ⟨⌊xf⌋, ⌊yf⌋, hcoord, ?_, ?_, ?_, ?_⟩
  · -- maxlat ≤ lat
    show mercator_to_lat (π * (1 - 2 * ((⌊yf⌋ : ℝ) * (1 / n) + 1 / n))) ≤ lat
    have hstep : (⌊yf⌋ : ℝ) * (1 / n) + 1 / n = ((⌊yf⌋ : ℝ) + 1) / n := by
      field_simp
    have hyle : yf ≤ (⌊yf⌋ : ℝ) + 1 := (Int.lt_floor_add_one yf).le
    have hdivle : yf / n ≤ ((⌊yf⌋ : ℝ) + 1) / n := (div_le_div_right hn).mpr hyle
    have hinv : π * (1 - 2 * (yf / n)) = m := by
      rw [hyf_def]
      field_simp
      ring
    have harg : π * (1 - 2 * (((⌊yf⌋ : ℝ) + 1) / n)) ≤ m := by
      rw [← hinv]
      nlinarith [mul_nonneg hπ.le (sub_nonneg.mpr hdivle)]
    rw [hstep]
    calc mercator_to_lat (π * (1 - 2 * (((⌊yf⌋ : ℝ) + 1) / n)))
        ≤ mercator_to_lat m := mercator_to_lat_le _ _ harg
      _ = lat := by rw [hm_def]; exact mercator_roundtrip lat (by linarith) (by linarith)
  · -- lat ≤ minlat
    show lat ≤ mercator_to_lat (π * (1 - 2 * ((⌊yf⌋ : ℝ) * (1 / n))))
    have hfl : (⌊yf⌋ : ℝ) ≤ yf := Int.floor_le yf
    have hdivle : (⌊yf⌋ : ℝ) / n ≤ yf / n := (div_le_div_right hn).mpr hfl
    have hinv : π * (1 - 2 * (yf / n)) = m := by
      rw [hyf_def]
      field_simp
      ring
    have harg : m ≤ π * (1 - 2 * ((⌊yf⌋ : ℝ) / n)) := by
      rw [← hinv]
      nlinarith [mul_nonneg hπ.le (sub_nonneg.mpr hdivle)]
    rw [mul_one_div]
    calc lat = mercator_to_lat m := by
          rw [hm_def]
          exact (mercator_roundtrip lat (by linarith) (by linarith)).symm
      _ ≤ mercator_to_lat (π * (1 - 2 * ((⌊yf⌋ : ℝ) / n))) := mercator_to_lat_le _ _ harg
  · -- minlon ≤ lon
    show -180 + (⌊xf⌋ : ℝ) * (360 / n) ≤ lon
    have hfl : (⌊xf⌋ : ℝ) ≤ xf := Int.floor_le xf
    have h1 : (⌊xf⌋ : ℝ) * (360 / n) ≤ xf * (360 / n) :=
      mul_le_mul_of_nonneg_right hfl (by positivity)
    have h2 : xf * (360 / n) = lon + 180 := by
      rw [hxf_def]
      field_simp
    linarith
  · -- lon ≤ maxlon
    show lon ≤ -180 + (⌊xf⌋ : ℝ) * (360 / n) + 360 / n
    have hyle : xf ≤ (⌊xf⌋ : ℝ) + 1 := (Int.lt_floor_add_one xf).le
    have h1 : xf * (360 / n) ≤ ((⌊xf⌋ : ℝ) + 1) * (360 / n) :=
      mul_le_mul_of_nonneg_right hyle (by positivity)
    have h2 : xf * (360 / n) = lon + 180 := by
      rw [hxf_def]
      field_simp
    nlinarith

end
